import Mathlib

/-!
Verification of the `PlotHandler` component of `sims_maf`
(`python/lsst/sims/maf/plots/plotHandler.py`).

Python strings are modelled as `List Char`; Python lists as `List`;
Python dicts with string keys as association lists updated in place
(matching insertion-ordered CPython dicts); Python sets of strings as
duplicate-free lists in insertion order (CPython set iteration order is
unspecified; theorems that depend on the order of a multi-element set
are stated for every relevant order).  Exceptions raised by the Python
code (`ValueError`, `KeyError`, `UnboundLocalError`, `IndexError`,
`TypeError`, `NameError`) are modelled with `Except PyErr`.
-/

namespace Maf

abbrev Str := List Char

/-- Error kinds that the translated Python code can raise. -/
inductive PyErr where
  | valueError
  | keyError
  | unboundLocal
  | indexError
  | typeError
  | nameError
  deriving DecidableEq, Repr, Inhabited

/-- Python `list.insert(i, a)`: the index is clamped to the list length
(`l.take i` and `l.drop i` both clamp), exactly as CPython does for a
non-negative index. -/
def pyInsert (i : Nat) (a : α) (l : List α) : List α :=
  l.take i ++ a :: l.drop i

/-- Worker for `pySplit`, structurally recursive on explicit fuel.
`fuel` starts at the length of the subject string and decreases by one
per step while at least one character is consumed per step, so the
`fuel = 0` fallback is unreachable. -/
def pySplitGo (sep : Str) : Nat → Str → Str → List Str
  | _, acc, [] => [acc.reverse]
  | 0, acc, s => [acc.reverse ++ s]
  | fuel + 1, acc, c :: cs =>
    if sep.isPrefixOf (c :: cs) then
      acc.reverse :: pySplitGo sep fuel [] (cs.drop (sep.length - 1))
    else
      pySplitGo sep fuel (c :: acc) cs

/-- Python `s.split(sep)` for a non-empty separator `sep`: splits on
every occurrence, keeping empty pieces. -/
def pySplit (sep s : Str) : List Str :=
  pySplitGo sep s.length [] s

/-- Python `needle in hay` substring test. -/
def strContains (hay needle : Str) : Bool :=
  (List.range (hay.length + 1)).any fun i => needle.isPrefixOf (hay.drop i)

/-- Python `s.strip()`: remove leading and trailing whitespace. -/
def pyStrip (s : Str) : Str :=
  ((s.dropWhile Char.isWhitespace).reverse.dropWhile Char.isWhitespace).reverse

/-- Python `s.split()` (no separator): split on whitespace runs and
discard empty pieces.  The metadata handled by the source uses single
spaces, for which splitting on `' '` and dropping empties agrees with
CPython. -/
def pySplitWs (s : Str) : List Str :=
  (pySplit [' '] s).filter (fun p => p ≠ [])

/-- Python `sep.join(xs)`. -/
def pyJoin (sep : Str) (xs : List Str) : Str :=
  List.intercalate sep xs

/-- Python set insertion: add an element if not already present
(insertion-ordered model of a CPython set). -/
def setAdd [BEq α] (s : List α) (a : α) : List α :=
  if s.contains a then s else s ++ [a]

/-- Build a Python set from an iteration, keeping first occurrences. -/
def setOfList [BEq α] (l : List α) : List α :=
  l.foldl setAdd []

/-- Python `a.intersection(b)` on the set model. -/
def setInter [BEq α] (a b : List α) : List α :=
  a.filter fun x => b.contains x

/-- Python `a.difference(b)` on the set model. -/
def setDiff [BEq α] (a b : List α) : List α :=
  a.filter fun x => !(b.contains x)

/-- Python `set.intersection(*sets)` over a non-empty list of sets. -/
def intersectAll [BEq α] : List (List α) → List α
  | [] => []
  | x :: rest => rest.foldl setInter x

/-- Set equality (Python `==` between sets): mutual containment. -/
def setEqb [BEq α] (a b : List α) : Bool :=
  a.all b.contains && b.all a.contains

/-- Python `d in listOfSets` membership, which compares with set
equality. -/
def memSet [BEq α] (l : List (List α)) (d : List α) : Bool :=
  l.any (setEqb d)

/-- Effectful map over a list, stopping at the first raised exception
(the semantics of a Python `for` loop that appends to a result
list). -/
def exMapM (f : α → Except PyErr β) : List α → Except PyErr (List β)
  | [] => .ok []
  | a :: as =>
    match f a with
    | .error e => .error e
    | .ok b =>
      match exMapM f as with
      | .error e => .error e
      | .ok bs => .ok (b :: bs)

/-- Number of (possibly overlapping) occurrences of `needle` in
`hay`. -/
def countSub (hay needle : Str) : Nat :=
  ((List.range (hay.length + 1)).filter fun i =>
    needle.isPrefixOf (hay.drop i)).length

/-- Index of the first occurrence of `needle` in `hay`, if any. -/
def firstIdxSub (hay needle : Str) : Option Nat :=
  (List.range (hay.length + 1)).find? fun i => needle.isPrefixOf (hay.drop i)

/-! ## Data model

Shallow embedding of the objects `PlotHandler` consumes: metric
bundles with their metric, slicer, per-bundle plot dict and display
dict.  Fields the source reads are modelled; `metric.units` is an
`Option` because the source tests it against `None` explicitly
(line 261); the display-dict keys the source indexes unconditionally
(`group`, `subgroup`, `order`) are structure fields. -/

structure Metric where
  name : Str
  units : Option Str
  metricDtype : Str
  deriving DecidableEq, Repr, Inhabited

structure Slicer where
  slicerName : Str
  sliceColName : Str
  sliceColUnits : Str
  deriving DecidableEq, Repr, Inhabited

/-- The per-bundle `plotDict`: the keys the source looks up
(`label`, `color`, `ylabel`, `metricIsColor`); `none` models the key
being absent. -/
structure BundlePlotDict where
  label : Option Str := none
  color : Option Str := none
  ylabel : Option Str := none
  metricIsColor : Option Bool := none
  deriving DecidableEq, Repr, Inhabited

structure DisplayDict where
  group : Str
  subgroup : Str
  order : Int
  caption : Str := []
  deriving DecidableEq, Repr, Inhabited

structure MBundle where
  fileRoot : Str
  metadata : Str
  runName : Str
  sqlconstraint : Str
  metric : Metric
  slicer : Slicer
  plotDict : BundlePlotDict := {}
  displayDict : DisplayDict := { group := [], subgroup := [], order := 0 }
  deriving DecidableEq, Repr, Inhabited

/-- `self.filtercolors` (constructor, lines 29-30), as a lookup:
Python `self.filtercolors[v]`, with `none` for the `KeyError` case. -/
def filtercolors (f : Str) : Option Str :=
  if f == "u".toList then some "b".toList
  else if f == "g".toList then some "g".toList
  else if f == "r".toList then some "y".toList
  else if f == "i".toList then some "r".toList
  else if f == "z".toList then some "m".toList
  else if f == "y".toList then some "k".toList
  else none

/-- `self.filterorder` (constructor, line 31): Python
`self.filterorder.get(f, None)`. -/
def filterorder (f : Str) : Option Nat :=
  if f == "u".toList then some 0
  else if f == "g".toList then some 1
  else if f == "r".toList then some 2
  else if f == "i".toList then some 3
  else if f == "z".toList then some 4
  else if f == "y".toList then some 5
  else none

/-- The filter order list `['u', 'g', 'r', 'i', 'z', 'y']` used by the
combine functions (lines 109 and 158). -/
def bandOrder : List Str :=
  ["u".toList, "g".toList, "r".toList, "i".toList, "z".toList, "y".toList]

/-! ## setMetricBundles (lines 33-71): bundle ordering and slicer check -/

/-- `forder` of one bundle file root (lines 44-46 / 55-57): split on
underscores, keep length-1 tokens, map through `filterorder.get` and
drop the misses. -/
def forderOf (fileRoot : Str) : List Nat :=
  (((pySplit "_".toList fileRoot).filter fun f => f.length == 1).map
    filterorder).filterMap id

/-- One iteration of the insertion loop of `setMetricBundles`
(lines 54-62): insert at the last matching band precedence, or at the
current end when no token matches. -/
def orderStep (acc : List MBundle) (mB : MBundle) : List MBundle :=
  let forder := match (forderOf mB.fileRoot).getLast? with
    | none => acc.length
    | some o => o
  pyInsert forder mB acc

/-- The ordered `self.mBundles` produced by the insertion loop of
`setMetricBundles` (the list branch, lines 53-62; the dict branch,
lines 42-51, runs the identical loop over the dict's value iteration
order). -/
def orderBundles (mBundles : List MBundle) : List MBundle :=
  mBundles.foldl orderStep []

/-! ## The combine functions (lines 100-224) -/

/-- `_combineMetricNames` (lines 100-135), as a function of the unique
metric-name set (insertion-ordered set model). -/
def combineMetricNames (metricNames : List Str) : Str :=
  if metricNames.length == 1 then pyJoin " ".toList metricNames
  else
    let nameLengths := metricNames.map fun x => (pySplitWs x).length
    let nameLists := metricNames.map pySplitWs
    if (setOfList nameLengths).length == 1 then
      let n := nameLengths.headD 0
      let jointParts := (List.range n).map fun i =>
        let tmp := setOfList (nameLists.map fun x => x.getD i [])
        if setEqb (setInter tmp bandOrder) tmp then
          bandOrder.foldl (fun acc f => if tmp.contains f then acc ++ f else acc) []
        else pyJoin [] tmp
      pyJoin " ".toList jointParts
    else pyJoin " ".toList metricNames

/-- Stable insertion into a length-sorted list: keeps an earlier
element before later elements of equal length. -/
def insertByLen (x : Str) : List Str → List Str
  | [] => [x]
  | y :: ys => if x.length ≤ y.length then x :: y :: ys else y :: insertByLen x ys

/-- `[diff[i] for i in np.argsort(xlengths)]` (lines 194-196): sort the
differing clauses by ascending length.  Modelled as a stable sort (ties
keep list order). -/
def sortByLen : List Str → List Str
  | [] => []
  | x :: xs => insertByLen x (sortByLen xs)

/-- One metadata string split into clauses (lines 162-171): split on
`" and "` if present, else on `", "` if present, else a single clause;
strip whitespace; collect as a set. -/
def metaClauses (m : Str) : List Str :=
  let parts :=
    if strContains m " and ".toList then pySplit " and ".toList m
    else if strContains m ", ".toList then pySplit ", ".toList m
    else [m]
  setOfList (parts.map pyStrip)

/-- The `common` clause set of the metadata merge (lines 161-174):
clause sets per metadata string, intersected. -/
def metaCommon (metadata : List Str) : List Str :=
  intersectAll (metadata.map metaClauses)

/-- `_combineMetadata` (lines 146-215), as a function of the unique
metadata set (insertion-ordered set model).  `min(lengths) == 0`
(line 188) is rendered as `0 ∈ lengths`, equivalent for the non-empty
`lengths` arising here; `list(d)[0]` on an empty `d` (line 192) raises
`IndexError`. -/
def combineMetadata (metadata : List Str) : Except PyErr Str :=
  if metadata.length == 1 then .ok (pyJoin " ".toList metadata)
  else
    let splitmetas := metadata.map metaClauses
    let common := metaCommon metadata
    let diff := splitmetas.map fun x => setDiff x common
    let diffsplit := diff.map fun d =>
      match d with
      | [] => ([] : List Str)
      | x :: _ => setOfList (pySplitWs x)
    let diffcommon := intersectAll diffsplit
    let diffdiff := diffsplit.map fun x => setDiff x diffcommon
    let lengths := diffdiff.map List.length
    if lengths.contains 0 then
      match exMapM (fun d =>
        match d with
        | [] => Except.error PyErr.indexError
        | x :: _ => Except.ok x) diff with
      | .error e => .error e
      | .ok tmp =>
        let diffdiffR := sortByLen tmp
        Except.ok (pyJoin ", ".toList diffdiffR ++ " ".toList
          ++ pyJoin " ".toList [] ++ " ".toList ++ pyJoin " ".toList common)
    else
      let diffdiffOrdered := bandOrder.foldl (fun acc f =>
        acc ++ diffdiff.filter fun d =>
          match d with
          | [x] => x == f
          | _ => false) []
      let diffdiffEnd := diffdiff.filter fun d => !(memSet diffdiffOrdered d)
      let diffdiffR := (diffdiffOrdered ++ diffdiffEnd).map fun c => pyJoin " ".toList c
      Except.ok (pyJoin ", ".toList diffdiffR ++ " ".toList
        ++ pyJoin " ".toList diffcommon ++ " ".toList ++ pyJoin " ".toList common)

/-- The combined view held on `self` after `setMetricBundles`:
the ordered bundles, the slicer reference, and the unique/joint values
computed by `_combineMetricNames`, `_combineRunNames`,
`_combineMetadata` and `_combineSql`. -/
structure Combined where
  mBundles : List MBundle
  slicer : Slicer
  metricNames : List Str
  jointMetricNames : Str
  runNames : List Str
  jointRunNames : Str
  metadata : List Str
  jointMetadata : Str
  sqlconstraints : Str
  deriving DecidableEq, Repr, Inhabited

/-- A value stored in the joint plot dict: strings, Python `None`,
the derived label/color lists, or numeric caller overrides. -/
inductive PVal where
  | s (v : Str)
  | nil
  | strs (v : List Str)
  | ostrs (v : List (Option Str))
  | int (v : Int)
  deriving DecidableEq, Repr, Inhabited

/-- The render-function contract consumed by the handler: `plotType`,
`defaultPlotDict` (insertion-ordered; `none` values mean "no opinion"
and are skipped, lines 91-94) and `objectPlotter`. -/
structure PlotFunc where
  plotType : Str
  defaultPlotDict : List (Str × Option PVal) := []
  objectPlotter : Bool := true
  deriving DecidableEq, Repr, Inhabited

/-! ## The presentation builders (lines 226-338) -/

/-- `_buildTitle` (lines 226-240).  `plotTitle` is a local that is only
assigned when the run-name set is a singleton, so the later `+=` and
`== ''` uses raise `UnboundLocalError` otherwise; the local is threaded
as an `Option`. -/
def buildTitle (C : Combined) : Except PyErr Str :=
  let t0 : Option Str :=
    if C.runNames.length == 1 then some (C.runNames.headD []) else none
  let r1 : Except PyErr (Option Str) :=
    if C.metadata.length == 1 then
      match t0 with
      | some t => .ok (some (t ++ " ".toList ++ C.metadata.headD []))
      | none => .error PyErr.unboundLocal
    else .ok t0
  match r1 with
  | .error e => .error e
  | .ok t1 =>
    let r2 : Except PyErr (Option Str) :=
      if C.metricNames.length == 1 then
        match t1 with
        | some t => .ok (some (t ++ ": ".toList ++ C.metricNames.headD []))
        | none => .error PyErr.unboundLocal
      else .ok t1
    match r2 with
    | .error e => .error e
    | .ok none => .error PyErr.unboundLocal
    | .ok (some t) =>
      if t == [] then .ok (C.jointMetadata ++ " ".toList ++ C.jointMetricNames)
      else .ok t

/-- `_buildXYlabels` (lines 242-275).  In the single-bundle
`BinnedData` branch the source concatenates `mB.metric.units` without a
`None` test, which raises `TypeError` for `None` units. -/
def buildXYlabels (C : Combined) (pf : PlotFunc) : Except PyErr (Str × Option Str) :=
  if pf.plotType == "BinnedData".toList then
    match C.mBundles with
    | [mB] =>
      match mB.metric.units with
      | some u => .ok (mB.slicer.sliceColName ++ " (".toList ++ mB.slicer.sliceColUnits
            ++ ")".toList,
          some (mB.metric.name ++ " (".toList ++ u ++ ")".toList))
      | none => .error PyErr.typeError
    | l =>
      .ok (pyJoin ", ".toList (setOfList (l.map fun b => b.slicer.sliceColName)),
        some C.jointMetricNames)
  else
    match C.mBundles with
    | [mB] =>
      let xl := mB.metric.name ++ (match mB.metric.units with
        | some u => if u.length > 0 then " (".toList ++ u ++ ")".toList else []
        | none => [])
      .ok (xl, none)
    | l =>
      let yls := setOfList (l.filterMap fun b => b.plotDict.ylabel)
      .ok (C.jointMetricNames, if yls.length == 1 then some (yls.headD []) else none)

/-- `_buildLegendLabels` (lines 277-296). -/
def buildLegendLabels (C : Combined) : List (Option Str) :=
  if C.mBundles.length == 1 then [none]
  else C.mBundles.map fun mB =>
    match mB.plotDict.label with
    | some l => some l
    | none => some (
        (if C.runNames.length > 1 then mB.runName else []) ++
        (if C.metadata.length > 1 then " ".toList ++ mB.metadata else []) ++
        (if C.metricNames.length > 1 then " ".toList ++ mB.metric.name else []))

/-- The length-1 quote-delimited pieces of a sql constraint: the tokens
the color loop of `_buildColors` (lines 313-317) treats as filter
values. -/
def singleToks (s : Str) : List Str :=
  (pySplit ['"'] s).filter fun v => v.length == 1

/-- The for-loop over quote-delimited pieces (lines 314-317): the
`color` local is threaded as `Option Str` (`none` = never assigned);
each length-1 piece performs `self.filtercolors[v]`, raising `KeyError`
on a miss. -/
def colorLoop (st : Option Str) : List Str → Except PyErr (Option Str)
  | [] => .ok st
  | v :: vs =>
    if v.length == 1 then
      match filtercolors v with
      | some c => colorLoop (some c) vs
      | none => .error PyErr.keyError
    else colorLoop st vs

/-- One iteration of the bundle loop of `_buildColors` (lines 308-320):
from the current state of the `color` local, produce the appended color
and the new state.  `colors.append(color)` with `color` never assigned
raises `UnboundLocalError`. -/
def colorStep (st : Option Str) (mB : MBundle) : Except PyErr (Str × Option Str) :=
  match mB.plotDict.color with
  | some c => .ok (c, some c)
  | none =>
    if strContains mB.sqlconstraint "filter".toList then
      match colorLoop st (pySplit ['"'] mB.sqlconstraint) with
      | .error e => .error e
      | .ok none => .error PyErr.unboundLocal
      | .ok (some c) => .ok (c, some c)
    else .ok ("b".toList, some "b".toList)

/-- The bundle loop of `_buildColors`, threading the `color` local. -/
def colorFold (st : Option Str) : List MBundle → Except PyErr (List Str)
  | [] => .ok []
  | mB :: rest =>
    match colorStep st mB with
    | .error e => .error e
    | .ok (c, st2) =>
      match colorFold st2 rest with
      | .error e => .error e
      | .ok cs => .ok (c :: cs)

/-- `_buildColors` (lines 298-321). -/
def buildColors (C : Combined) : Except PyErr (List Str) :=
  match C.mBundles with
  | [mB] => .ok [(mB.plotDict.color).getD "b".toList]
  | l => colorFold none l

/-- `_buildCbarFormat` (lines 323-338). -/
def buildCbarFormat (C : Combined) : Option Str :=
  match C.mBundles with
  | [mB] => if mB.metric.metricDtype == "int".toList then some "%d".toList else none
  | l =>
    let dtypes := setOfList (l.map fun b => b.metric.metricDtype)
    if dtypes.length == 1 && dtypes.headD [] == "int".toList then some "%d".toList
    else none

/-! ## The joint plot dict and `setPlotDict` (lines 73-98) -/

/-- The joint `self.plotDict`: an insertion-ordered association list,
matching a CPython dict. -/
abbrev PDict := List (Str × PVal)

/-- Dict assignment `P[k] = v`: replace in place at the key's existing
position, append at the end if absent (CPython dict semantics). -/
def pdSet : PDict → Str → PVal → PDict
  | [], k, v => [(k, v)]
  | kv :: rest, k, v =>
    if kv.1 == k then (k, v) :: rest else kv :: pdSet rest k v

/-- Dict lookup `P.get(k)`. -/
def pdGet : PDict → Str → Option PVal
  | [], _ => none
  | kv :: rest, k => if kv.1 == k then some kv.2 else pdGet rest k

/-- Store an optional string the way the dict holds it (`None` for
`none`). -/
def ovalOf : Option Str → PVal
  | some s => .s s
  | none => .nil

/-- `setPlotDict` (lines 73-98).  `P` is the incoming `self.plotDict`;
the result is the outgoing one.  With `reset` the base is a fresh dict,
otherwise the existing `P` (line 77-80); derived keys are then written,
the plot function's non-`None` defaults layered on, and the caller's
`plotDict` applied last (line 96-97). -/
def applyPlotterDefaults (defaults : List (Str × Option PVal)) (tmp : PDict) : PDict :=
  defaults.foldl (fun acc kv =>
    match kv.2 with
    | some v => pdSet acc kv.1 v
    | none => acc) tmp

def applyCallerOverrides (plotDict : Option PDict) (tmp : PDict) : PDict :=
  match plotDict with
  | some o => o.foldl (fun acc kv => pdSet acc kv.1 kv.2) tmp
  | none => tmp

def setPlotDictFn (C : Combined) (P : PDict) (plotDict : Option PDict)
    (plotFunc : Option PlotFunc) (reset : Bool) : Except PyErr PDict :=
  let tmp := if reset then ([] : PDict) else P
  match buildTitle C with
  | .error e => .error e
  | .ok title =>
    let tmp := pdSet tmp "title".toList (.s title)
    let tmp := pdSet tmp "labels".toList (.ostrs (buildLegendLabels C))
    match buildColors C with
    | .error e => .error e
    | .ok colors =>
      let tmp := pdSet tmp "colors".toList (.strs colors)
      let tmp := pdSet tmp "legendloc".toList (.s "upper right".toList)
      let tmp := pdSet tmp "cbarFormat".toList (ovalOf (buildCbarFormat C))
      match plotFunc with
      | none => .ok (applyCallerOverrides plotDict tmp)
      | some pf =>
        match buildXYlabels C pf with
        | .error e => .error e
        | .ok xy =>
          let tmp := pdSet tmp "xlabel".toList (.s xy.1)
          let tmp := pdSet tmp "ylabel".toList (ovalOf xy.2)
          .ok (applyCallerOverrides plotDict (applyPlotterDefaults pf.defaultPlotDict tmp))

/-! ## setMetricBundles assembled (lines 33-71) -/

/-- `setMetricBundles` (lines 33-71): order the bundles, take the first
bundle's slicer, raise `ValueError` when some bundle's slicer name
differs from it (lines 64-66; the loop raises at the first mismatch,
which raises iff not all names agree), compute the combined views, and
reset the plot dict.  Returns the handler state. -/
def setMetricBundles (mBundles : List MBundle) : Except PyErr (Combined × PDict) :=
  let ordered := orderBundles mBundles
  match ordered.head? with
  | none => .error PyErr.indexError
  | some b0 =>
    if ordered.all (fun b => b.slicer.slicerName == b0.slicer.slicerName) then
      let metricNames := setOfList (ordered.map fun b => b.metric.name)
      let runNames := setOfList (ordered.map fun b => b.runName)
      let metadata := setOfList (ordered.map fun b => b.metadata)
      match combineMetadata metadata with
      | .error e => .error e
      | .ok jointMetadata =>
        let C : Combined := {
          mBundles := ordered
          slicer := b0.slicer
          metricNames := metricNames
          jointMetricNames := combineMetricNames metricNames
          runNames := runNames
          jointRunNames := pyJoin " ".toList runNames
          metadata := metadata
          jointMetadata := jointMetadata
          sqlconstraints :=
            pyJoin "; ".toList (setOfList (ordered.map fun b => b.sqlconstraint)) }
        match setPlotDictFn C [] none none true with
        | .error e => .error e
        | .ok pd => .ok (C, pd)
    else .error PyErr.valueError

/-! ## plot (lines 387-432): guard and configuration effects -/

/-- Outcome of the capability check opening `plot` (lines 391-395).
The module never imports `warnings` (its imports are `os`, `numpy`,
`matplotlib.pyplot` and `lsst.sims.maf.utils`), so reaching the
`warnings.warn(...)` call raises `NameError`; indexing the absent
`metricIsColor` key raises `KeyError`; `proceed` means the check fell
through and plotting continues. -/
inductive GuardOutcome where
  | proceed
  | nameError
  | keyError
  deriving DecidableEq, Repr, Inhabited

/-- The bundle loop of the capability check (lines 392-395). -/
def guardLoop : List MBundle → GuardOutcome
  | [] => .proceed
  | mB :: rest =>
    match mB.plotDict.metricIsColor with
    | none => .keyError
    | some false => .nameError
    | some true => guardLoop rest

/-- The capability check of `plot` (lines 391-395): only runs when the
render function is not an object plotter. -/
def plotGuard (objectPlotter : Bool) (mBundles : List MBundle) : GuardOutcome :=
  if objectPlotter then .proceed else guardLoop mBundles

/-- The per-render configurations of the render loop (lines 403-409):
at index `i` the loop writes `plotDict['label'] = labels[i]` and
`plotDict['color'] = colors[i]` into `self.plotDict` before invoking
the render function; the configuration handed to render `i` is `P1`
with those two keys written. -/
def configsDuring (C : Combined) (P1 : PDict) : Except PyErr (List PDict) :=
  match pdGet P1 "labels".toList, pdGet P1 "colors".toList with
  | some (.ostrs labels), some (.strs colors) =>
    exMapM (fun i =>
      match labels.get? i, colors.get? i with
      | some lab, some col =>
        .ok (pdSet (pdSet P1 "label".toList (ovalOf lab)) "color".toList (.s col))
      | _, _ => .error PyErr.indexError) (List.range C.mBundles.length)
  | _, _ => .error PyErr.typeError

/-- `plot` (lines 387-432) restricted to its configuration effects:
the capability check, the `setPlotDict(plotDict, plotFunc,
reset=False)` call (line 398), and the label/color writes of the
render loop.  Rendering, figure saving and results-catalog writes are
external collaborators that do not touch the configuration.  Returns
the configurations in effect at each render together with the final
`self.plotDict`. -/
def plotCall (C : Combined) (P : PDict) (plotDict : Option PDict) (pf : PlotFunc) :
    Except PyErr (List PDict × PDict) :=
  match plotGuard pf.objectPlotter C.mBundles with
  | .nameError => .error PyErr.nameError
  | .keyError => .error PyErr.keyError
  | .proceed =>
    match setPlotDictFn C P plotDict (some pf) false with
    | .error e => .error e
    | .ok P1 =>
      match configsDuring C P1 with
      | .error e => .error e
      | .ok cfgs => .ok (cfgs, cfgs.getLastD P1)

/-! ## Display-record derivation (lines 357-385) -/

/-- The order accumulation of `_buildDisplayDict` (lines 368-373):
`order` starts at 0 and becomes `o + 1` whenever it is strictly below a
bundle's `o`. -/
def ordFoldStep (acc o : Int) : Int :=
  if acc < o then o + 1 else acc

/-- `_buildDisplayDict` (lines 357-385).  The empty-bundle case hits
`list(group)[0]` on an empty set, an `IndexError`. -/
def buildDisplayDict (C : Combined) : Except PyErr DisplayDict :=
  match C.mBundles with
  | [mB] => .ok mB.displayDict
  | [] => .error PyErr.indexError
  | b :: rest =>
    let l := b :: rest
    let group := setOfList (l.map fun x => x.displayDict.group)
    let subgroup := setOfList (l.map fun x => x.displayDict.subgroup)
    let order := (l.map fun x => x.displayDict.order).foldl ordFoldStep 0
    .ok {
      group := if group.length > 1 then "Comparisons".toList else group.headD []
      subgroup := if subgroup.length > 1 then "Comparisons".toList else subgroup.headD []
      order := order
      caption := C.jointMetricNames ++ " metric(s) calculated on a ".toList
        ++ b.slicer.slicerName ++ " grid, for opsim runs ".toList
        ++ C.jointRunNames ++ ", for metadata values of ".toList
        ++ C.jointMetadata ++ ".".toList }

/-! ## Concrete inputs used by witnesses and counterexamples -/

/-- A concrete bundle builder for witnesses and counterexamples. -/
def mkBundle (fileRoot metadata runName sqlconstraint metricName slicerName : String) :
    MBundle :=
  { fileRoot := fileRoot.toList
    metadata := metadata.toList
    runName := runName.toList
    sqlconstraint := sqlconstraint.toList
    metric := { name := metricName.toList, units := some "mag".toList,
                metricDtype := "float".toList }
    slicer := { slicerName := slicerName.toList, sliceColName := "night".toList,
                sliceColUnits := "days".toList } }

def wbG : MBundle := mkBundle "run1_Count_g" "g band" "run1" "night < 100" "Count" "OneDSlicer"
def wbU : MBundle := mkBundle "run1_Count_u" "u band" "run1" "night < 100" "Count" "OneDSlicer"
def wbR : MBundle := mkBundle "run1_Count_r" "r band" "run1" "night < 100" "Count" "OneDSlicer"
def wbH : MBundle := mkBundle "run1_Count_z" "z band" "run1" "night < 100" "Count" "HealpixSlicer"

def w9L : List MBundle := [wbG, wbU]

def w9C : Combined := ((setMetricBundles w9L).toOption.getD default).1

def w9Pd : PDict := ((setMetricBundles w9L).toOption.getD default).2

/-- The joint metadata string produced in the C2 scenario. -/
def jm2 : Str := "g, r band dithered".toList

def c4b1 : MBundle := mkBundle "c4a" "m one" "run1" "night < 100" "Count" "OneDSlicer"

def c4b2 : MBundle :=
  mkBundle "c4b" "m two" "run1" "filter = \"u\" and filter = \"g\"" "Count" "OneDSlicer"

def c4C : Combined := { (default : Combined) with mBundles := [c4b1, c4b2] }

def w10b : MBundle := mkBundle "w10" "md" "run1" "filter slicer" "Count" "OneDSlicer"

def c7b1 : MBundle := { mkBundle "c7a" "m one" "run1" "night < 100" "Count" "OneDSlicer" with
  displayDict := { group := "G".toList, subgroup := "S".toList, order := 2 } }

def c7b2 : MBundle := { mkBundle "c7b" "m two" "run1" "night < 100" "Count" "OneDSlicer" with
  displayDict := { group := "G".toList, subgroup := "S".toList, order := 3 } }

def c7C : Combined := { (default : Combined) with mBundles := [c7b1, c7b2] }

def w7b1 : MBundle := { c7b1 with
  displayDict := { group := "G".toList, subgroup := "S".toList, order := 2 } }

def w7b2 : MBundle := { c7b2 with
  displayDict := { group := "G".toList, subgroup := "S".toList, order := 1 } }

def w7C : Combined := { (default : Combined) with mBundles := [w7b1, w7b2] }

def w7dd : DisplayDict := (buildDisplayDict w7C).toOption.getD default

/-- The maximum of 0 and a list of integers, used to state the display
order bounds. -/
def maxZero (orders : List Int) : Int := orders.foldl max 0

def c3b : MBundle := mkBundle "run1_Count" "" "run1" "night < 100" "Count" "OneDSlicer"

def c3C : Combined := ((setMetricBundles [c3b]).toOption.getD default).1

def c8bFlag : MBundle := { mkBundle "c8a" "md" "run1" "night < 100" "Count" "OneDSlicer" with
  plotDict := { metricIsColor := some false } }

def c8bMissing : MBundle := mkBundle "c8b" "md" "run1" "night < 100" "Count" "OneDSlicer"

def c8C : Combined := { (default : Combined) with mBundles := [c8bFlag] }

def c8pf : PlotFunc := { plotType := "Hist".toList, objectPlotter := false }

def c6b : MBundle := mkBundle "run1_Count" "md" "run1" "night < 100" "Count" "OneDSlicer"

def c6C : Combined := ((setMetricBundles [c6b]).toOption.getD default).1

def c6P0 : PDict := ((setMetricBundles [c6b]).toOption.getD default).2

def c6pf : PlotFunc := { plotType := "BinnedData".toList }

def c6ov : PDict := [("xMin".toList, PVal.int 5)]

def c6F1 : PDict := ((plotCall c6C c6P0 (some c6ov) c6pf).toOption.getD default).2

def c6call2 : List PDict × PDict := (plotCall c6C c6F1 none c6pf).toOption.getD default

def c6fresh : List PDict × PDict := (plotCall c6C c6P0 none c6pf).toOption.getD default

def w6P2 : PDict := (setPlotDictFn c6C c6F1 none (some c6pf) false).toOption.getD default

def w6cfgs : List PDict := (configsDuring c6C w6P2).toOption.getD default

/-! ## Shared lemmas -/

instance exceptDecidableEq {ε α : Type} [DecidableEq ε] [DecidableEq α] :
    DecidableEq (Except ε α) := fun a b =>
  match a, b with
  | .error e, .error f =>
    if h : e = f then isTrue (by rw [h]) else isFalse (fun hc => h (Except.error.inj hc))
  | .ok x, .ok y =>
    if h : x = y then isTrue (by rw [h]) else isFalse (fun hc => h (Except.ok.inj hc))
  | .error _, .ok _ => isFalse (fun hc => Except.noConfusion hc)
  | .ok _, .error _ => isFalse (fun hc => Except.noConfusion hc)

/-- `pyInsert` inserts exactly its element: the result is a permutation
of the element consed on the original list. -/
theorem pyInsert_perm (i : Nat) (a : α) (l : List α) :
    List.Perm (pyInsert i a l) (a :: l) := by
  unfold pyInsert
  have h : List.Perm (l.take i ++ a :: l.drop i) (a :: (l.take i ++ l.drop i)) :=
    List.perm_middle
  rwa [List.take_append_drop] at h

theorem foldl_orderStep_perm (l : List MBundle) :
    ∀ acc, List.Perm (List.foldl orderStep acc l) (acc ++ l) := by
  induction l with
  | nil => intro acc; simp
  | cons x xs ih =>
    intro acc
    have h2 : List.Perm (orderStep acc x) (x :: acc) := by
      unfold orderStep; exact pyInsert_perm _ _ _
    have h4 : List.Perm (orderStep acc x ++ xs) ((x :: acc) ++ xs) :=
      h2.append_right xs
    have h5 : List.Perm (acc ++ x :: xs) (x :: (acc ++ xs)) := List.perm_middle
    simpa using (ih (orderStep acc x)).trans (h4.trans h5.symm)

theorem orderBundles_perm (l : List MBundle) : List.Perm (orderBundles l) l := by
  simpa using foldl_orderStep_perm l []

/-! ## C1 -/

/-- C1: three bundles whose file-root underscore tokens contain exactly
one matching single-character band token each — "g", "u", "r" —
installed in arrival order g, u, r, come out ordered u, g, r: band
precedence, not arrival order, each bundle being inserted at the
precedence index of the last matching band token of its file root. -/
theorem C1_filter_band_order (bG bU bR : MBundle)
    (hg : forderOf bG.fileRoot = [1])
    (hu : forderOf bU.fileRoot = [0])
    (hr : forderOf bR.fileRoot = [2]) :
    orderBundles [bG, bU, bR] = [bU, bG, bR] := by
  simp [orderBundles, orderStep, hg, hu, hr, pyInsert]

/-- Witness for C1 at concrete file roots `run1_Count_g` /
`run1_Count_u` / `run1_Count_r`. -/
theorem C1_filter_band_order_witness :
    forderOf wbG.fileRoot = [1] ∧ forderOf wbU.fileRoot = [0] ∧
    forderOf wbR.fileRoot = [2] ∧ orderBundles [wbG, wbU, wbR] = [wbU, wbG, wbR] :=
  ⟨by decide, by decide, by decide,
    C1_filter_band_order wbG wbU wbR (by decide) (by decide) (by decide)⟩

/-! ## C9 -/

/-- The handler state produced by a successful `setMetricBundles` holds
exactly the ordered list `orderBundles l`. -/
theorem setMetricBundles_mBundles (l : List MBundle) (C : Combined) (pd : PDict)
    (h : setMetricBundles l = .ok (C, pd)) : C.mBundles = orderBundles l := by
  unfold setMetricBundles at h
  dsimp only at h
  split at h
  · exact absurd h (by simp)
  · split at h
    · split at h
      · exact absurd h (by simp)
      · split at h
        · exact absurd h (by simp)
        · injection h with h2
          cases h2
          rfl
    · exact absurd h (by simp)

/-- C9: every bundle list accepted by `setMetricBundles` yields an
ordered bundle sequence that is a permutation of the input — each
input bundle appears exactly once and the length is preserved,
whatever band tokens the file roots carry. -/
theorem C9_ordering_is_permutation (l : List MBundle) (C : Combined) (pd : PDict)
    (h : setMetricBundles l = .ok (C, pd)) :
    List.Perm C.mBundles l ∧ C.mBundles.length = l.length := by
  rw [setMetricBundles_mBundles l C pd h]
  exact ⟨orderBundles_perm l, (orderBundles_perm l).length_eq⟩

/-- Witness for C9 at a concrete accepted two-bundle input. -/
theorem C9_ordering_is_permutation_witness :
    List.Perm w9C.mBundles w9L ∧ w9C.mBundles.length = w9L.length :=
  C9_ordering_is_permutation w9L w9C w9Pd (by decide)

/-! ## C5: error classification lemmas -/

theorem err_propagate {γ δ : Type} {x : Except PyErr γ} {e : PyErr}
    (heq : x = .error e) (hne : x ≠ .error PyErr.valueError) :
    (Except.error e : Except PyErr δ) ≠ .error PyErr.valueError := by
  intro hc
  injection hc with h2
  rw [h2] at heq
  exact hne heq

theorem exMapM_ne_ve {α β : Type} (f : α → Except PyErr β)
    (hf : ∀ a, f a ≠ .error PyErr.valueError) (l : List α) :
    exMapM f l ≠ .error PyErr.valueError := by
  induction l with
  | nil => simp [exMapM]
  | cons a as ih =>
    simp only [exMapM]
    cases hfa : f a with
    | error e => exact err_propagate hfa (hf a)
    | ok b =>
      cases hm : exMapM f as with
      | error e => exact err_propagate hm ih
      | ok bs => simp

theorem combineMetadata_ne_ve (m : List Str) :
    combineMetadata m ≠ .error PyErr.valueError := by
  unfold combineMetadata
  split
  · simp
  · dsimp only
    split
    · split
      · next e heq =>
        refine err_propagate heq (exMapM_ne_ve _ ?_ _)
        intro d
        cases d <;> simp
      · simp
    · simp

theorem buildTitle_ne_ve (C : Combined) : buildTitle C ≠ .error PyErr.valueError := by
  unfold buildTitle
  dsimp only
  split
  · next e heq =>
    refine err_propagate heq ?_
    split
    · split <;> simp
    · simp
  · next t1 heq =>
    split
    · next e2 heq2 =>
      refine err_propagate heq2 ?_
      split
      · split <;> simp
      · simp
    · simp
    · split <;> simp

theorem colorLoop_ne_ve (l : List Str) :
    ∀ st, colorLoop st l ≠ .error PyErr.valueError := by
  induction l with
  | nil => intro st; simp [colorLoop]
  | cons v vs ih =>
    intro st
    simp only [colorLoop]
    split
    · cases hfc : filtercolors v with
      | some c => exact ih (some c)
      | none => simp
    · exact ih st

theorem colorStep_ne_ve (st : Option Str) (mB : MBundle) :
    colorStep st mB ≠ .error PyErr.valueError := by
  unfold colorStep
  split
  · simp
  · split
    · split
      · next e heq => exact err_propagate heq (colorLoop_ne_ve _ st)
      · simp
      · simp
    · simp

theorem colorFold_ne_ve (l : List MBundle) :
    ∀ st, colorFold st l ≠ .error PyErr.valueError := by
  induction l with
  | nil => intro st; simp [colorFold]
  | cons mB rest ih =>
    intro st
    simp only [colorFold]
    cases hs : colorStep st mB with
    | error e => exact err_propagate hs (colorStep_ne_ve st mB)
    | ok p =>
      obtain ⟨c, st2⟩ := p
      dsimp only
      cases hf : colorFold st2 rest with
      | error e => exact err_propagate hf (ih st2)
      | ok cs => simp [hf]

theorem buildColors_ne_ve (C : Combined) : buildColors C ≠ .error PyErr.valueError := by
  unfold buildColors
  split
  · simp
  · exact colorFold_ne_ve _ none

theorem buildXYlabels_ne_ve (C : Combined) (pf : PlotFunc) :
    buildXYlabels C pf ≠ .error PyErr.valueError := by
  unfold buildXYlabels
  split
  · split
    · split <;> simp
    · simp
  · split
    · simp
    · simp

theorem setPlotDictFn_ne_ve (C : Combined) (P : PDict) (plotDict : Option PDict)
    (plotFunc : Option PlotFunc) (reset : Bool) :
    setPlotDictFn C P plotDict plotFunc reset ≠ .error PyErr.valueError := by
  unfold setPlotDictFn
  dsimp only
  split
  · next e heq => exact err_propagate heq (buildTitle_ne_ve C)
  · split
    · next e heq => exact err_propagate heq (buildColors_ne_ve C)
    · split
      · simp
      · split
        · next e heq => exact err_propagate heq (buildXYlabels_ne_ve C _)
        · simp

/-- With all slicer names equal, `setMetricBundles` cannot raise the
slicer `ValueError` (later stages raise only other error kinds). -/
theorem setMetricBundles_ne_ve_of_same (l : List MBundle)
    (hsame : ∀ a ∈ l, ∀ b ∈ l, a.slicer.slicerName = b.slicer.slicerName) :
    setMetricBundles l ≠ .error PyErr.valueError := by
  unfold setMetricBundles
  dsimp only
  split
  · simp
  · next b0 heq =>
    have hb0 : b0 ∈ l := by
      cases horder : orderBundles l with
      | nil => rw [horder] at heq; simp at heq
      | cons x xs =>
        rw [horder] at heq
        simp only [List.head?_cons, Option.some.injEq] at heq
        refine (orderBundles_perm l).mem_iff.mp ?_
        rw [horder, ← heq]
        exact List.mem_cons_self x xs
    have hall : ((orderBundles l).all fun b =>
        b.slicer.slicerName == b0.slicer.slicerName) = true := by
      rw [List.all_eq_true]
      intro b hb
      exact beq_iff_eq.mpr
        (hsame b ((orderBundles_perm l).mem_iff.mp hb) b0 hb0)
    rw [if_pos hall]
    split
    · next e heq2 => exact err_propagate heq2 (combineMetadata_ne_ve _)
    · split
      · next e heq3 => exact err_propagate heq3 (setPlotDictFn_ne_ve _ _ _ _ _)
      · simp

/-- C5: installing a non-empty bundle set via `setMetricBundles`
raises the fatal slicer `ValueError` exactly when two bundles carry
different slicer type names; a set whose bundles all share one slicer
name never raises that error. -/
theorem C5_slicer_mismatch_fatal (l : List MBundle) (h : l ≠ []) :
    setMetricBundles l = .error PyErr.valueError ↔
      ∃ a ∈ l, ∃ b ∈ l, a.slicer.slicerName ≠ b.slicer.slicerName := by
  constructor
  · intro hve
    by_contra hno
    push_neg at hno
    exact setMetricBundles_ne_ve_of_same l hno hve
  · rintro ⟨a, ha, b, hb, hab⟩
    have hne : orderBundles l ≠ [] := by
      intro horder
      have hlen := (orderBundles_perm l).length_eq
      rw [horder] at hlen
      exact h (List.eq_nil_of_length_eq_zero hlen.symm)
    unfold setMetricBundles
    dsimp only
    cases horder : orderBundles l with
    | nil => exact absurd horder hne
    | cons x xs =>
      have hax : a ∈ x :: xs := by
        rw [← horder]; exact (orderBundles_perm l).mem_iff.mpr ha
      have hbx : b ∈ x :: xs := by
        rw [← horder]; exact (orderBundles_perm l).mem_iff.mpr hb
      have hwit : ∃ c ∈ x :: xs, c.slicer.slicerName ≠ x.slicer.slicerName := by
        by_cases hcase : a.slicer.slicerName = x.slicer.slicerName
        · exact ⟨b, hbx, fun hbn => hab (hcase.trans hbn.symm)⟩
        · exact ⟨a, hax, hcase⟩
      simp only [List.head?_cons]
      rw [if_neg]
      intro hall
      rw [List.all_eq_true] at hall
      obtain ⟨c, hc, hcn⟩ := hwit
      exact hcn (beq_iff_eq.mp (hall c hc))

/-- Witness for C5 at a concrete two-bundle input with differing
slicer names. -/
theorem C5_slicer_mismatch_fatal_witness :
    ([wbG, wbH] ≠ ([] : List MBundle)) ∧
    (setMetricBundles [wbG, wbH] = .error PyErr.valueError ↔
      ∃ a ∈ [wbG, wbH], ∃ b ∈ [wbG, wbH],
        a.slicer.slicerName ≠ b.slicer.slicerName) :=
  ⟨by decide, C5_slicer_mismatch_fatal [wbG, wbH] (by decide)⟩

/-! ## C2 -/

/-- C2: merging the metadata strings "r band, dithered" and
"g band, dithered" (in either iteration order of the two-element set)
yields common clause set {"dithered"} and the joint string
"g, r band dithered": "g" precedes "r" (band order, indices 0 and 3)
and the word "dithered" occurs exactly once. -/
theorem C2_metadata_merge :
    metaCommon ["r band, dithered".toList, "g band, dithered".toList]
      = ["dithered".toList] ∧
    metaCommon ["g band, dithered".toList, "r band, dithered".toList]
      = ["dithered".toList] ∧
    combineMetadata ["r band, dithered".toList, "g band, dithered".toList] = .ok jm2 ∧
    combineMetadata ["g band, dithered".toList, "r band, dithered".toList] = .ok jm2 ∧
    firstIdxSub jm2 "g".toList = some 0 ∧
    firstIdxSub jm2 "r".toList = some 3 ∧
    countSub jm2 "dithered".toList = 1 := by decide

/-! ## C10 -/

/-- A piece list with no length-1 entry leaves the `color` local
untouched. -/
theorem colorLoop_no_tok (l : List Str) :
    ∀ st, (l.filter fun v => v.length == 1) = [] → colorLoop st l = .ok st := by
  induction l with
  | nil => intro st _; rfl
  | cons v vs ih =>
    intro st hf
    rw [List.filter_cons] at hf
    by_cases hv : (v.length == 1) = true
    · rw [if_pos hv] at hf; cases hf
    · rw [if_neg hv] at hf
      simp only [colorLoop]
      rw [if_neg hv]
      exact ih st hf

/-- C10: in multi-bundle color derivation, a bundle with no color
override whose constraint contains "filter" but no length-1
quote-delimited token is assigned no color of its own: the `color`
local keeps the value computed for the preceding bundle, which is
silently appended again; and when no preceding color was ever
assigned, the append raises `UnboundLocalError`. -/
theorem C10_missing_token_reuses_color (st : Option Str) (c : Str) (b : MBundle)
    (h1 : b.plotDict.color = none)
    (h2 : strContains b.sqlconstraint "filter".toList = true)
    (h3 : singleToks b.sqlconstraint = []) :
    (st = some c → colorStep st b = .ok (c, some c)) ∧
    (st = none → colorStep st b = .error PyErr.unboundLocal) := by
  constructor
  · intro hc
    subst hc
    simp only [colorStep, h1]
    rw [if_pos h2, colorLoop_no_tok _ (some c) h3]
  · intro hc
    subst hc
    simp only [colorStep, h1]
    rw [if_pos h2, colorLoop_no_tok _ none h3]

/-- Witness for C10 at a concrete bundle with a preceding color
"y". -/
theorem C10_missing_token_reuses_color_witness :
    ((some "y".toList : Option Str) = some "y".toList →
      colorStep (some "y".toList) w10b = .ok ("y".toList, some "y".toList)) ∧
    ((some "y".toList : Option Str) = none →
      colorStep (some "y".toList) w10b = .error PyErr.unboundLocal) :=
  C10_missing_token_reuses_color (some "y".toList) "y".toList w10b
    (by decide) (by decide) (by decide)

/-! ## C4 -/

/-- With every length-1 piece recognized by the color table, the loop
ends holding the color of the LAST such piece. -/
theorem colorLoop_all_good (l : List Str) :
    ∀ st t c,
      ((l.filter fun v => v.length == 1).all fun x => (filtercolors x).isSome) = true →
      (l.filter fun v => v.length == 1).getLast? = some t →
      filtercolors t = some c →
      colorLoop st l = .ok (some c) := by
  induction l with
  | nil => intro st t c _ hlast _; simp at hlast
  | cons v vs ih =>
    intro st t c hall hlast hc
    rw [List.filter_cons] at hall hlast
    by_cases hv : (v.length == 1) = true
    · rw [if_pos hv] at hall hlast
      simp only [colorLoop]
      rw [if_pos hv]
      have hvs : (filtercolors v).isSome = true :=
        List.all_eq_true.mp hall v (List.mem_cons_self _ _)
      obtain ⟨cv, hcv⟩ := Option.isSome_iff_exists.mp hvs
      rw [hcv]
      dsimp only
      cases hfvs : vs.filter fun v => v.length == 1 with
      | nil =>
        rw [hfvs] at hlast
        have ht : v = t := by
          have := hlast
          simp only [List.getLast?_singleton, Option.some.injEq] at this
          exact this
        rw [colorLoop_no_tok vs (some cv) hfvs]
        rw [ht, hc] at hcv
        injection hcv with h2
        rw [h2]
      | cons f fs =>
        rw [hfvs] at hall hlast
        rw [List.getLast?_cons_cons] at hlast
        refine ih (some cv) t c ?_ (by rw [hfvs]; exact hlast) hc
        rw [hfvs]
        exact List.all_eq_true.mpr fun x hx =>
          List.all_eq_true.mp hall x (List.mem_cons_of_mem v hx)
    · rw [if_neg hv] at hall hlast
      simp only [colorLoop]
      rw [if_neg hv]
      exact ih st t c hall hlast hc

/-- With some length-1 piece unrecognized by the color table, the loop
raises `KeyError`. -/
theorem colorLoop_any_bad (l : List Str) :
    ∀ st, ((l.filter fun v => v.length == 1).any fun x => filtercolors x == none) = true →
      colorLoop st l = .error PyErr.keyError := by
  induction l with
  | nil => intro st h; simp at h
  | cons v vs ih =>
    intro st h
    rw [List.filter_cons] at h
    by_cases hv : (v.length == 1) = true
    · rw [if_pos hv] at h
      simp only [colorLoop]
      rw [if_pos hv]
      cases hfc : filtercolors v with
      | none => rfl
      | some cv =>
        refine ih (some cv) ?_
        rw [List.any_cons] at h
        cases Bool.or_eq_true_iff.mp h with
        | inl hbad => rw [hfc] at hbad; simp at hbad
        | inr h3 => exact h3
    · rw [if_neg hv] at h
      simp only [colorLoop]
      rw [if_neg hv]
      exact ih st h

/-- Counterexample to C4 as stated: the quote-delimited length-1
tokens of `c4b2`'s constraint are ["u", "g"]; the derived color is the
table entry of the LAST token ("g" → "g", green), not of the first
("u" → "b", blue). -/
theorem C4_first_token_counterexample :
    buildColors c4C = .ok ["b".toList, "g".toList] ∧
    (singleToks c4b2.sqlconstraint).head? = some "u".toList ∧
    filtercolors "u".toList = some "b".toList ∧
    ("g".toList : Str) ≠ "b".toList := by decide

/-- C4 (amended): for a bundle without a color override whose sql
constraint contains "filter", the derived color is the band table
entry keyed by the LAST length-1 quote-delimited token (when all such
tokens are in the table), and when ANY such token is not one of the
six band letters the table `KeyError` is raised and propagates,
with no fallback to a default color. -/
theorem C4_last_token_color (st : Option Str) (b : MBundle) (t c : Str)
    (h1 : b.plotDict.color = none)
    (h2 : strContains b.sqlconstraint "filter".toList = true) :
    (((singleToks b.sqlconstraint).all fun x => (filtercolors x).isSome) = true →
      (singleToks b.sqlconstraint).getLast? = some t →
      filtercolors t = some c →
      colorStep st b = .ok (c, some c)) ∧
    (((singleToks b.sqlconstraint).any fun x => filtercolors x == none) = true →
      colorStep st b = .error PyErr.keyError) := by
  constructor
  · intro hall hlast hc
    simp only [colorStep, h1]
    rw [if_pos h2, colorLoop_all_good _ st t c hall hlast hc]
  · intro hany
    simp only [colorStep, h1]
    rw [if_pos h2, colorLoop_any_bad _ st hany]

/-- Witness for the amended C4 at the concrete constraint with quote
tokens ["u", "g"]. -/
theorem C4_last_token_color_witness :
    (((singleToks c4b2.sqlconstraint).all fun x => (filtercolors x).isSome) = true →
      (singleToks c4b2.sqlconstraint).getLast? = some "g".toList →
      filtercolors "g".toList = some "g".toList →
      colorStep none c4b2 = .ok ("g".toList, some "g".toList)) ∧
    (((singleToks c4b2.sqlconstraint).any fun x => filtercolors x == none) = true →
      colorStep none c4b2 = .error PyErr.keyError) :=
  C4_last_token_color none c4b2 "g".toList "g".toList (by decide) (by decide)

/-! ## C7 -/

theorem foldl_max_le_init (l : List Int) : ∀ a : Int, a ≤ l.foldl max a := by
  induction l with
  | nil => intro a; exact le_refl a
  | cons x xs ih =>
    intro a
    simp only [List.foldl_cons]
    exact le_trans (le_max_left a x) (ih (max a x))

theorem mem_le_foldl_max (l : List Int) : ∀ (a x : Int), x ∈ l → x ≤ l.foldl max a := by
  induction l with
  | nil => intro a x hx; cases hx
  | cons y ys ih =>
    intro a x hx
    simp only [List.foldl_cons]
    cases hx with
    | head => exact le_trans (le_max_right a y) (foldl_max_le_init ys (max a y))
    | tail _ h => exact ih (max a y) x h

theorem foldl_max_le (l : List Int) :
    ∀ a B, a ≤ B → (∀ x ∈ l, x ≤ B) → l.foldl max a ≤ B := by
  induction l with
  | nil => intro a B h _; exact h
  | cons y ys ih =>
    intro a B h hall
    simp only [List.foldl_cons]
    exact ih (max a y) B (max_le h (hall y (List.mem_cons_self y ys)))
      (fun x hx => hall x (List.mem_cons_of_mem y hx))

theorem foldl_ord_ge_init (l : List Int) : ∀ acc : Int, acc ≤ l.foldl ordFoldStep acc := by
  induction l with
  | nil => intro acc; exact le_refl acc
  | cons x xs ih =>
    intro acc
    simp only [List.foldl_cons]
    refine le_trans ?_ (ih (ordFoldStep acc x))
    unfold ordFoldStep
    split
    · next h => omega
    · exact le_refl acc

theorem foldl_ord_ge_mem (l : List Int) :
    ∀ (acc x : Int), x ∈ l → x ≤ l.foldl ordFoldStep acc := by
  induction l with
  | nil => intro _ x hx; cases hx
  | cons y ys ih =>
    intro acc x hx
    simp only [List.foldl_cons]
    cases hx with
    | head =>
      refine le_trans ?_ (foldl_ord_ge_init ys (ordFoldStep acc y))
      unfold ordFoldStep
      split
      · omega
      · next h => omega
    | tail _ h => exact ih (ordFoldStep acc y) x h

theorem foldl_ord_le (l : List Int) :
    ∀ acc M, acc ≤ 1 + M → (∀ x ∈ l, x ≤ M) → l.foldl ordFoldStep acc ≤ 1 + M := by
  induction l with
  | nil => intro acc M h _; exact h
  | cons y ys ih =>
    intro acc M h hall
    simp only [List.foldl_cons]
    refine ih (ordFoldStep acc y) M ?_ (fun x hx => hall x (List.mem_cons_of_mem y hx))
    have hy := hall y (List.mem_cons_self y ys)
    unfold ordFoldStep
    split
    · omega
    · exact h

theorem foldl_ord_const (l : List Int) :
    ∀ acc, (∀ x ∈ l, x ≤ acc) → l.foldl ordFoldStep acc = acc := by
  induction l with
  | nil => intro acc _; rfl
  | cons y ys ih =>
    intro acc hall
    simp only [List.foldl_cons]
    have hy : y ≤ acc := hall y (List.mem_cons_self y ys)
    have hstep : ordFoldStep acc y = acc := by
      unfold ordFoldStep
      rw [if_neg (not_lt.mpr hy)]
    rw [hstep]
    exact ih acc (fun x hx => hall x (List.mem_cons_of_mem y hx))

/-- Counterexample to C7 as stated: two bundles with display orders 2
and 3 yield display order 3, not 1 + 3: the accumulator is already 3
after the first bundle (2 + 1) and `3 < 3` fails, so the maximum never
adds its 1. -/
theorem C7_order_counterexample :
    c7b1.displayDict.order = 2 ∧ c7b2.displayDict.order = 3 ∧
    (buildDisplayDict c7C).map DisplayDict.order = .ok 3 ∧
    (buildDisplayDict c7C).map DisplayDict.order ≠
      .ok (1 + maxZero [c7b1.displayDict.order, c7b2.displayDict.order]) := by decide

/-- C7 (amended): for two or more bundles, the derived display order
lies between the maximum of 0 and the bundles' display orders and that
maximum plus 1; it equals the maximum plus 1 whenever the first
bundle's order is positive and maximal, but can fall short of it in
general (counterexample: orders 2, 3). -/
theorem C7_display_order_amended (C : Combined) (b1 b2 : MBundle) (rest : List MBundle)
    (dd : DisplayDict)
    (hmb : C.mBundles = b1 :: b2 :: rest)
    (hdd : buildDisplayDict C = .ok dd) :
    maxZero ((b1 :: b2 :: rest).map fun x => x.displayDict.order) ≤ dd.order ∧
    dd.order ≤ 1 + maxZero ((b1 :: b2 :: rest).map fun x => x.displayDict.order) ∧
    ((0 < b1.displayDict.order ∧
      maxZero ((b1 :: b2 :: rest).map fun x => x.displayDict.order) = b1.displayDict.order) →
      dd.order = 1 + b1.displayDict.order) := by
  have horder : dd.order =
      ((b1 :: b2 :: rest).map fun x => x.displayDict.order).foldl ordFoldStep 0 := by
    unfold buildDisplayDict at hdd
    rw [hmb] at hdd
    dsimp only at hdd
    injection hdd with h2
    subst h2
    rfl
  rw [horder]
  unfold maxZero
  refine ⟨?_, ?_, ?_⟩
  · exact foldl_max_le (((b1 :: b2 :: rest)).map fun x => x.displayDict.order) 0 _
      (foldl_ord_ge_init _ 0) (fun x hx => foldl_ord_ge_mem _ 0 x hx)
  · refine foldl_ord_le _ 0 _ ?_ (fun x hx => mem_le_foldl_max _ 0 x hx)
    have h0 : (0 : Int) ≤ ((b1 :: b2 :: rest).map fun x => x.displayDict.order).foldl max 0 :=
      foldl_max_le_init _ 0
    omega
  · rintro ⟨hpos, hmax⟩
    rw [List.map_cons, List.foldl_cons]
    have hstep : ordFoldStep 0 b1.displayDict.order = b1.displayDict.order + 1 := by
      unfold ordFoldStep
      rw [if_pos hpos]
    rw [hstep]
    have hrest : ∀ x ∈ (b2 :: rest).map fun y => y.displayDict.order,
        x ≤ b1.displayDict.order + 1 := by
      intro x hx
      have hx2 : x ∈ (b1 :: b2 :: rest).map fun y => y.displayDict.order := by
        simp only [List.map_cons]
        exact List.mem_cons_of_mem _ (by simpa using hx)
      have := mem_le_foldl_max ((b1 :: b2 :: rest).map fun y => y.displayDict.order) 0 x hx2
      rw [hmax] at this
      omega
    rw [foldl_ord_const _ _ hrest]
    omega

/-- Witness for the amended C7: first bundle order 2 (positive,
maximal), second order 1; the derived order is 3 = 1 + 2. -/
theorem C7_display_order_amended_witness :
    maxZero ((w7b1 :: w7b2 :: []).map fun x => x.displayDict.order) ≤ w7dd.order ∧
    w7dd.order ≤ 1 + maxZero ((w7b1 :: w7b2 :: []).map fun x => x.displayDict.order) ∧
    ((0 < w7b1.displayDict.order ∧
      maxZero ((w7b1 :: w7b2 :: []).map fun x => x.displayDict.order)
        = w7b1.displayDict.order) →
      w7dd.order = 1 + w7b1.displayDict.order) :=
  C7_display_order_amended w7C w7b1 w7b2 [] w7dd (by decide) (by decide)

/-! ## C3 -/

/-- Counterexample to C3 as stated: the derived title of the concrete
single-bundle scenario (metric "Count", empty metadata, run "run1") is
"run1 : Count" — with a space before the colon, because the
single-metadata branch appends `' ' + ''` before the metric branch
appends `': Count'` — not "run1: Count". -/
theorem C3_title_counterexample :
    buildTitle c3C = .ok "run1 : Count".toList ∧
    buildTitle c3C ≠ .ok "run1: Count".toList := by decide

/-- C3 (amended): a single installed bundle with metric name "Count",
empty metadata, run name "run1", rendered with a plot function of plot
type "BinnedData": xlabel is the slicer column name followed by its
units in parentheses, ylabel is "Count" followed by the metric units
in parentheses, and the title is "run1 : Count" (space before the
colon), not "run1: Count". -/
theorem C3_single_binned_config (fr sql u dt sn scn scu jmn jrn jmd sqls : Str)
    (pd : BundlePlotDict) (ddict : DisplayDict) (defaults : List (Str × Option PVal))
    (op : Bool) :
    let b : MBundle :=
      { fileRoot := fr, metadata := [], runName := "run1".toList, sqlconstraint := sql,
        metric := { name := "Count".toList, units := some u, metricDtype := dt },
        slicer := { slicerName := sn, sliceColName := scn, sliceColUnits := scu },
        plotDict := pd, displayDict := ddict }
    let C : Combined :=
      { mBundles := [b], slicer := b.slicer, metricNames := ["Count".toList],
        jointMetricNames := jmn, runNames := ["run1".toList], jointRunNames := jrn,
        metadata := [[]], jointMetadata := jmd, sqlconstraints := sqls }
    buildXYlabels C
        { plotType := "BinnedData".toList, defaultPlotDict := defaults,
          objectPlotter := op } =
      .ok (scn ++ " (".toList ++ scu ++ ")".toList,
           some ("Count".toList ++ " (".toList ++ u ++ ")".toList)) ∧
    buildTitle C = .ok "run1 : Count".toList := by
  exact ⟨rfl, rfl⟩

/-! ## C8 -/

/-- C8 (divergence from the spec'd behavior): a render function with
`objectPlotter = False` over a bundle whose plot dict carries
`metricIsColor = False` makes `plot` raise `NameError`, because the
module never imports `warnings`; a bundle lacking the `metricIsColor`
key makes the guard raise `KeyError` from the dict lookup.  Neither
path emits a warning and returns early. -/
theorem C8_guard_raises_instead_of_warning :
    plotGuard false [c8bFlag] = .nameError ∧
    plotGuard false [c8bMissing] = .keyError ∧
    plotCall c8C [] none c8pf = .error PyErr.nameError := by decide

/-! ## C6 -/

/-- Writing one key leaves every other key's value unchanged. -/
theorem pdGet_pdSet_ne (P : PDict) (k k2 : Str) (v : PVal) (h : k2 ≠ k) :
    pdGet (pdSet P k2 v) k = pdGet P k := by
  have hb : (k2 == k) = false := by
    cases hx : k2 == k
    · rfl
    · exact absurd (beq_iff_eq.mp hx) h
  induction P with
  | nil => simp [pdSet, pdGet, hb]
  | cons kv rest ih =>
    simp only [pdSet]
    by_cases hk : (kv.1 == k2) = true
    · rw [if_pos hk]
      have h1 : kv.1 = k2 := beq_iff_eq.mp hk
      simp [pdGet, hb, h1]
    · rw [if_neg hk]
      simp only [pdGet]
      by_cases hkk : (kv.1 == k) = true
      · rw [if_pos hkk, if_pos hkk]
      · rw [if_neg hkk, if_neg hkk]
        exact ih

/-- The plotter-defaults layer leaves keys outside its key set
unchanged. -/
theorem pdGet_defaults_ne (defaults : List (Str × Option PVal)) (k : Str) :
    ∀ tmp, ¬ k ∈ defaults.map Prod.fst →
      pdGet (applyPlotterDefaults defaults tmp) k = pdGet tmp k := by
  induction defaults with
  | nil => intro tmp _; rfl
  | cons d ds ih =>
    intro tmp h
    have hd : d.1 ≠ k := by
      intro he
      exact h (by rw [List.map_cons, he]; exact List.mem_cons_self _ _)
    have hds : ¬ k ∈ ds.map Prod.fst := fun hm =>
      h (by rw [List.map_cons]; exact List.mem_cons_of_mem _ hm)
    show pdGet (applyPlotterDefaults ds
      (match d.2 with | some v => pdSet tmp d.1 v | none => tmp)) k = pdGet tmp k
    rw [ih _ hds]
    cases d.2 with
    | none => rfl
    | some v => exact pdGet_pdSet_ne tmp k d.1 v hd

/-- The caller-overrides layer leaves keys outside its key set
unchanged. -/
theorem pdGet_overrides_ne (o : PDict) (k : Str) :
    ∀ tmp, ¬ k ∈ o.map Prod.fst →
      pdGet (o.foldl (fun acc kv => pdSet acc kv.1 kv.2) tmp) k = pdGet tmp k := by
  induction o with
  | nil => intro tmp _; rfl
  | cons d ds ih =>
    intro tmp h
    have hd : d.1 ≠ k := by
      intro he
      exact h (by rw [List.map_cons, he]; exact List.mem_cons_self _ _)
    have hds : ¬ k ∈ ds.map Prod.fst := fun hm =>
      h (by rw [List.map_cons]; exact List.mem_cons_of_mem _ hm)
    rw [List.foldl_cons, ih _ hds]
    exact pdGet_pdSet_ne tmp k d.1 d.2 hd

theorem pdGet_caller_ne (ov : Option PDict) (k : Str) (tmp : PDict)
    (hov : ¬ k ∈ (ov.getD []).map Prod.fst) :
    pdGet (applyCallerOverrides ov tmp) k = pdGet tmp k := by
  cases ov with
  | none => rfl
  | some o => exact pdGet_overrides_ne o k tmp hov

/-- Every element of a successful `exMapM` run is the image of some
list element. -/
theorem exMapM_ok_mem {α β : Type} (f : α → Except PyErr β) :
    ∀ l ys, exMapM f l = .ok ys → ∀ y ∈ ys, ∃ a, a ∈ l ∧ f a = .ok y := by
  intro l
  induction l with
  | nil =>
    intro ys h y hy
    simp only [exMapM] at h
    injection h with h2
    subst h2
    cases hy
  | cons a as ih =>
    intro ys h y hy
    simp only [exMapM] at h
    split at h
    · exact absurd h (by simp)
    · next b hb =>
      split at h
      · exact absurd h (by simp)
      · next bs hbs =>
        injection h with h2
        subst h2
        cases hy with
        | head => exact ⟨a, List.mem_cons_self _ _, hb⟩
        | tail _ hy2 =>
          obtain ⟨a2, ha2, hfa2⟩ := ih bs hbs y hy2
          exact ⟨a2, List.mem_cons_of_mem _ ha2, hfa2⟩

/-- C6 (amended): reusing the handler leaks state between plot calls:
during a plot call, any key outside the recomputed automatic set
(title, labels, colors, legendloc, cbarFormat, xlabel, ylabel), not
among the plot function's default keys, not overridden by this call,
and distinct from the loop-written label/color keys, keeps the value
it had in the stored plot dict — in particular, a caller override from
a previous plot call persists into the configurations handed to the
render functions of the next call. -/
theorem C6_stale_state_persists (C : Combined) (P P2 : PDict) (ov : Option PDict)
    (pf : PlotFunc) (k : Str) (cfgs : List PDict)
    (hk1 : k ≠ "title".toList) (hk2 : k ≠ "labels".toList)
    (hk3 : k ≠ "colors".toList) (hk4 : k ≠ "legendloc".toList)
    (hk5 : k ≠ "cbarFormat".toList) (hk6 : k ≠ "xlabel".toList)
    (hk7 : k ≠ "ylabel".toList) (hk8 : k ≠ "label".toList) (hk9 : k ≠ "color".toList)
    (hdef : ¬ k ∈ pf.defaultPlotDict.map Prod.fst)
    (hov : ¬ k ∈ (ov.getD []).map Prod.fst)
    (hset : setPlotDictFn C P ov (some pf) false = .ok P2)
    (hcfg : configsDuring C P2 = .ok cfgs) :
    pdGet P2 k = pdGet P k ∧
    (cfgs.all fun cfg => pdGet cfg k == pdGet P k) = true := by
  have hP2 : pdGet P2 k = pdGet P k := by
    unfold setPlotDictFn at hset
    dsimp only at hset
    split at hset
    · exact absurd hset (by simp)
    · split at hset
      · exact absurd hset (by simp)
      · split at hset
        · exact absurd hset (by simp)
        · injection hset with h2
          subst h2
          rw [pdGet_caller_ne ov k _ hov, pdGet_defaults_ne _ k _ hdef,
            pdGet_pdSet_ne _ _ _ _ hk7.symm, pdGet_pdSet_ne _ _ _ _ hk6.symm,
            pdGet_pdSet_ne _ _ _ _ hk5.symm, pdGet_pdSet_ne _ _ _ _ hk4.symm,
            pdGet_pdSet_ne _ _ _ _ hk3.symm, pdGet_pdSet_ne _ _ _ _ hk2.symm,
            pdGet_pdSet_ne _ _ _ _ hk1.symm]
          simp
  refine ⟨hP2, ?_⟩
  rw [List.all_eq_true]
  intro cfg hcfgm
  unfold configsDuring at hcfg
  split at hcfg
  · next labels colors hl hc =>
    obtain ⟨i, _, hfi⟩ := exMapM_ok_mem _ _ cfgs hcfg cfg hcfgm
    split at hfi
    · next lab col hlab hcol =>
      injection hfi with h2
      subst h2
      rw [beq_iff_eq, pdGet_pdSet_ne _ _ _ _ hk9.symm,
        pdGet_pdSet_ne _ _ _ _ hk8.symm]
      exact hP2
    · exact absurd hfi (by simp)
  · exact absurd hcfg (by simp)

/-- Counterexample to C6 as stated: with a single installed bundle,
after a first plot call overriding `xMin`, the configuration in effect
during a second, override-free call still carries `xMin = 5` (stale
state from the first call), whereas the configuration derived fresh
from the bundle set does not contain the key at all. -/
theorem C6_stale_state_counterexample :
    (c6call2.1.map fun cfg => pdGet cfg "xMin".toList) = [some (PVal.int 5)] ∧
    (c6fresh.1.map fun cfg => pdGet cfg "xMin".toList) = [none] := by decide

/-- Witness for the amended C6 at the concrete reuse scenario and the
stale key `xMin`. -/
theorem C6_stale_state_persists_witness :
    pdGet w6P2 "xMin".toList = pdGet c6F1 "xMin".toList ∧
    (w6cfgs.all fun cfg => pdGet cfg "xMin".toList == pdGet c6F1 "xMin".toList) = true :=
  C6_stale_state_persists c6C c6F1 w6P2 none c6pf "xMin".toList w6cfgs
    (by decide) (by decide) (by decide) (by decide) (by decide) (by decide)
    (by decide) (by decide) (by decide) (by decide) (by decide) (by decide) (by decide)

end Maf
